import Mathlib

/-!
Verification of the rclone-s3-router pipeline (Mapper / Zipper / Unzipper)
against its natural-language specification.

The Python sources are shallowly embedded: every pure computation of the
scripts becomes a Lean function on the same data, the effectful steps
(S3 calls, subprocesses, the filesystem) become explicit outcome values
that are threaded through the control flow exactly as the Python code
threads its exceptions and return codes.  Machine floats used by the code
for size accounting are modelled by rationals; the modelled properties are
scale-invariant comparisons which do not depend on rounding of the float
representation.  All definitions are executable.
-/

namespace RclonePipeline

/-! ## Shared configuration constants (from the v6 script headers) -/

/-- Zipper/Unzipper: `S3_MAX_RETRIES = 3`. -/
def S3_MAX_RETRIES : Nat := 3

/-- Zipper/Unzipper: `MAX_RETRY_DURATION = 300` seconds. -/
def MAX_RETRY_DURATION : Nat := 300

/-- Zipper: `MAX_PROGRESS_FILES = 5000`. -/
def MAX_PROGRESS_FILES : Nat := 5000

/-- Unzipper: `MAX_ZIP_BOMB_RATIO = 100` (named with a short suffix here). -/
def maxZipBombCap : ℚ := 100

/-- Mapper: `LARGE_FILE_THRESHOLD_GB * GB_IN_BYTES` with the default 20 GB,
`GB_IN_BYTES = 1024 * 1024 * 1024`. -/
def GB_IN_BYTES : Int := 1024 * 1024 * 1024

/-! ## Claim C10: `check_disk_space_for_file` fails open

Embedding of `python_zipper-v6.py`, lines 561-569.  The call
`shutil.disk_usage(path)` either returns a free-byte count or raises
`OSError`/`IOError`; the embedding passes that outcome in as
`Option ℚ` (`none` = the query raised).  The float literal `1.1` is
modelled as the rational `11/10`; the claim under check only concerns the
error branch, which performs no arithmetic. -/

/-- Zipper `check_disk_space_for_file(required_bytes)`: true when
`free >= required_bytes * 1.1`, and true as well when the disk-usage query
raises (`except (OSError, IOError): return True`). -/
def check_disk_space_for_file (requiredBytes : ℚ) (diskFree : Option ℚ) : Bool :=
  match diskFree with
  | none => true
  | some free => free ≥ requiredBytes * (11 / 10)

/-- Outcome of the pre-zip disk verification inside `pipeline_worker`
(`python_zipper-v6.py`, lines 936-940). -/
inductive PreZipOutcome
  | errorInsufficientDisk
  | proceedToZip
deriving DecidableEq, Repr

/-- Zipper `pipeline_worker` pre-zip gate: if
`not check_disk_space_for_file(estimated_zip_size)` the worker emits ERROR
and returns failure, otherwise it builds the archive. -/
def zipperPreZipStep (estimatedZipSize : ℚ) (diskFree : Option ℚ) : PreZipOutcome :=
  if check_disk_space_for_file estimatedZipSize diskFree then
    PreZipOutcome.proceedToZip
  else
    PreZipOutcome.errorInsufficientDisk

/-! ## Claim C1: `folder_complete` is only written on zero failures

Zipper side: embedding of the per-folder completion decision of `main`
(`python_zipper-v6.py`, lines 1262-1330).  After the resume subtraction,
`files` is the list of normal files still to do and `remainingLarge` the
large files still to do.  `run_zip_pipeline` returns
`any(r is False for r in results)` over the per-part `pipeline_worker`
results; the large pipeline returns the list of failed large-file paths.
`has_failures` is set from those two futures, and `mark_folder_complete`
runs only when it stayed false.  The early path for
`not files and not remaining_large` marks the folder directly. -/

/-- `run_zip_pipeline` result aggregation: true iff some worker failed. -/
def runZipPipelineFailed (zipResults : List Bool) : Bool :=
  zipResults.any (fun r => r == false)

/-- Whether the Zipper `main` loop sets `folder_complete` for a folder,
given the remaining work and the sub-unit outcomes. -/
def zipperSetsFolderComplete (files remainingLarge : List String)
    (zipResults : List Bool) (largeFailures : List String) : Bool :=
  if files.isEmpty && remainingLarge.isEmpty then
    -- `if not files and not remaining_large: mark_folder_complete(folder)`
    true
  else
    let zipFail := !files.isEmpty && runZipPipelineFailed zipResults
    let largeFail := !remainingLarge.isEmpty && !largeFailures.isEmpty
    !(zipFail || largeFail)

/-- Unzipper side: the keys of a folder still to process
(`remaining_keys = [k for k in zip_keys if k not in processed]`,
`python_unzipper-v6.py`, line 726). -/
def unzipRemaining (zipKeys processedKeys : List String) : List String :=
  zipKeys.filter (fun k => !(processedKeys.contains k))

/-- Whether `process_folder` (`python_unzipper-v6.py`, lines 706-777) calls
`mark_folder_complete`: never when the folder is already complete or no
zips exist; directly when nothing remains; otherwise only when
`failed_zips` stayed empty, i.e. every remaining archive's
`download_unzip_upload_one` returned success. -/
def unzipperSetsFolderComplete (alreadyComplete : Bool)
    (zipKeys processedKeys : List String) (results : List Bool) : Bool :=
  if alreadyComplete then false
  else if zipKeys.isEmpty then false
  else if (unzipRemaining zipKeys processedKeys).isEmpty then true
  else results.all (fun r => r == true)

/-! ## Claim C4: `s3_operation_with_retry` rate-limit handling

Embedding of `s3_operation_with_retry` (`python_zipper-v6.py` lines
258-314, identical in `python_unzipper-v6.py` lines 220-273 and
`master-mapper-v4.py` lines 303-353).  A run of the wrapped operation is a
script mapping the attempt number to the outcome of that call.  Elapsed
time counts the deterministic `time.sleep` backoffs (the time spent inside
the operation itself is abstracted to zero), so the duration check
`time.time() - start_time > max_duration` becomes `elapsed > maxDuration`. -/

/-- Outcome of one wrapped S3 call, by the exception branch it lands in. -/
inductive S3CallOutcome
  | ok
  | connectionError
  | clientError (code : String)
  | requestTimeout
  | otherError
deriving DecidableEq, Repr

/-- Codes of the rate-limit branch:
`error_code in ('SlowDown', '503', 'RequestLimitExceeded')`. -/
def isRateLimitCode (code : String) : Bool :=
  code == "SlowDown" || code == "503" || code == "RequestLimitExceeded"

/-- Codes that bypass retry:
`error_code in ('NoSuchKey', 'AccessDenied', 'InvalidAccessKeyId')`. -/
def isNonRetryableCode (code : String) : Bool :=
  code == "NoSuchKey" || code == "AccessDenied" || code == "InvalidAccessKeyId"

/-- How `s3_operation_with_retry` terminates. -/
inductive RetryResult
  | succeeded (attempt : Nat)
  | raisedDurationExceeded
  | raisedNonRetryable (code : String)
  | raisedLast (e : S3CallOutcome)
  | raisedUnknown
deriving DecidableEq, Repr

/-- Backoff of the rate-limit branch:
`wait_time = min(2 ** (attempt + 2), 60)`. -/
def rateLimitBackoff (attempt : Nat) : Nat :=
  min (2 ^ (attempt + 2)) 60

/-- Backoff of the ordinary transient branches: `2 ** attempt`, slept only
when `attempt < max_retries - 1`. -/
def transientBackoff (maxRetries attempt : Nat) : Nat :=
  if attempt < maxRetries - 1 then 2 ^ attempt else 0

/-- One pass of the `for attempt in range(max_retries)` loop, with
`remaining` iterations left, carrying the elapsed sleep time and Python's
`last_exception`.  Mirrors the source branch for branch. -/
def s3RetryAux (script : Nat → S3CallOutcome) (maxRetries maxDuration : Nat) :
    Nat → Nat → Nat → Option S3CallOutcome → RetryResult × Nat
  | 0, _, elapsed, lastE =>
    -- loop exhausted: `raise last_exception if last_exception else Exception(...)`
    match lastE with
    | some e => (RetryResult.raisedLast e, elapsed)
    | none => (RetryResult.raisedUnknown, elapsed)
  | remaining + 1, attempt, elapsed, _lastE =>
    if elapsed > maxDuration then (RetryResult.raisedDurationExceeded, elapsed)
    else
      match script attempt with
      | S3CallOutcome.ok => (RetryResult.succeeded attempt, elapsed)
      | S3CallOutcome.connectionError =>
        s3RetryAux script maxRetries maxDuration remaining (attempt + 1)
          (elapsed + transientBackoff maxRetries attempt) (some S3CallOutcome.connectionError)
      | S3CallOutcome.clientError code =>
        if isRateLimitCode code then
          s3RetryAux script maxRetries maxDuration remaining (attempt + 1)
            (elapsed + rateLimitBackoff attempt) (some (S3CallOutcome.clientError code))
        else if isNonRetryableCode code then
          (RetryResult.raisedNonRetryable code, elapsed)
        else
          s3RetryAux script maxRetries maxDuration remaining (attempt + 1)
            (elapsed + transientBackoff maxRetries attempt) (some (S3CallOutcome.clientError code))
      | S3CallOutcome.requestTimeout =>
        s3RetryAux script maxRetries maxDuration remaining (attempt + 1)
          (elapsed + transientBackoff maxRetries attempt) (some S3CallOutcome.requestTimeout)
      | S3CallOutcome.otherError =>
        s3RetryAux script maxRetries maxDuration remaining (attempt + 1)
          (elapsed + transientBackoff maxRetries attempt) (some S3CallOutcome.otherError)

/-- `s3_operation_with_retry(operation_func, max_retries, max_duration)`:
result together with the total backoff time slept. -/
def s3_operation_with_retry (script : Nat → S3CallOutcome)
    (maxRetries maxDuration : Nat) : RetryResult × Nat :=
  s3RetryAux script maxRetries maxDuration maxRetries 0 0 none

/-- Total rate-limit backoff over `count` consecutive rate-limited attempts
starting at attempt number `start`. -/
def totalRateLimitBackoff : Nat → Nat → Nat
  | _, 0 => 0
  | start, count + 1 => rateLimitBackoff start + totalRateLimitBackoff (start + 1) count

/-! ## Claim C5: zip-bomb refusal in `download_unzip_upload_one`

Embedding of `download_unzip_upload_one` (`python_unzipper-v6.py`, lines
548-704), in the configured `SKIP_UPLOAD = False` mode.  The effectful
steps are passed in as an environment: whether the S3 download (under
retry) succeeded, whether the downloaded file exists and passes
`verify_zip_integrity`, its size in MB (`os.path.getsize / 2^20`, a float
modelled as ℚ), the `unzip` return code, the extracted tree's size in MB
(`get_folder_size_mb`), and whether the rclone upload and the progress
save succeeded.  The result records the returned Bool, whether the upload
step was reached, whether `mark_zip_processed` was reached (only a reached
call can add the key to `processed_keys`), and the emitted status states
in order. -/

/-- Environment of one `download_unzip_upload_one` call. -/
structure UnzipArchiveEnv where
  downloadOk : Bool
  fileExists : Bool
  zipValid : Bool
  zipSizeMB : ℚ
  unzipRc : Int
  extractedSizeMB : ℚ
  uploadOk : Bool
  progressSaveOk : Bool
deriving DecidableEq, Repr

/-- Result of one `download_unzip_upload_one` call. -/
structure UnzipArchiveResult where
  success : Bool
  uploadAttempted : Bool
  markZipProcessedReached : Bool
  states : List String
deriving DecidableEq, Repr

/-- `download_unzip_upload_one`, step by step: download, existence check,
integrity check, unzip (`rc not in (0, 1)` fails), zip-bomb ratio check
`file_size_mb > 0 and (total_size_mb / file_size_mb) > MAX_ZIP_BOMB_RATIO`,
rclone upload, and finally `mark_zip_processed` (the function returns
`True` even when only the progress save failed). -/
def download_unzip_upload_one (env : UnzipArchiveEnv) : UnzipArchiveResult :=
  if !env.downloadOk then
    ⟨false, false, false, ["DOWNLOADING", "ERROR"]⟩
  else if !env.fileExists then
    ⟨false, false, false, ["DOWNLOADING", "ERROR"]⟩
  else if !env.zipValid then
    ⟨false, false, false, ["DOWNLOADING", "ERROR"]⟩
  else if env.unzipRc ≠ 0 ∧ env.unzipRc ≠ 1 then
    ⟨false, false, false, ["DOWNLOADING", "DOWNLOADED", "UNZIPPING", "ERROR"]⟩
  else if env.zipSizeMB > 0 ∧ env.extractedSizeMB / env.zipSizeMB > maxZipBombCap then
    ⟨false, false, false, ["DOWNLOADING", "DOWNLOADED", "UNZIPPING", "ERROR"]⟩
  else if !env.uploadOk then
    ⟨false, true, false,
      ["DOWNLOADING", "DOWNLOADED", "UNZIPPING", "UNZIPPED", "UPLOADING", "UPLOAD_ERR"]⟩
  else if env.progressSaveOk then
    ⟨true, true, true,
      ["DOWNLOADING", "DOWNLOADED", "UNZIPPING", "UNZIPPED", "UPLOADING", "UPLOADED",
        "COMPLETED"]⟩
  else
    ⟨true, true, true,
      ["DOWNLOADING", "DOWNLOADED", "UNZIPPING", "UNZIPPED", "UPLOADING", "UPLOADED",
        "WARN"]⟩

/-! ## Claims C7 and C9: the Mapper's size partition and its failure path

Embedding of `scan_folder_with_sizes` (`master-mapper-v4.py`, lines
606-668) and the per-folder body of `run_mapper` (lines 835-867).  A
scanned entry carries the `Path` and `Size` fields of one `rclone lsjson`
record.  Python's `round(x, 2)` on the float `size / GB_IN_BYTES` is
modelled as exact rational division followed by round-half-to-even at two
decimals, the formula both the code and the spec state. -/

/-- Round-half-to-even to an integer (Python's `round` tie behaviour). -/
def roundHalfToEven (q : ℚ) : ℤ :=
  let f := ⌊q⌋
  if q - f < 1 / 2 then f
  else if q - f > 1 / 2 then f + 1
  else if Even f then f else f + 1

/-- Python `round(q, 2)`. -/
def pyRound2 (q : ℚ) : ℚ :=
  (roundHalfToEven (q * 100) : ℚ) / 100

/-- One file record from the Transfer Agent's recursive listing. -/
structure RcloneEntry where
  path : String
  size : Int
deriving DecidableEq, Repr

/-- One record of the large-file manifest:
`{'path': path, 'size': size, 'size_gb': round(size / GB_IN_BYTES, 2)}`. -/
structure LargeFileRec where
  path : String
  size : Int
  size_gb : ℚ
deriving DecidableEq, Repr

/-- `round(size / GB_IN_BYTES, 2)`. -/
def sizeGb (size : Int) : ℚ :=
  pyRound2 ((size : ℚ) / (GB_IN_BYTES : ℚ))

/-- Partition loop of `scan_folder_with_sizes`: files with
`size > LARGE_FILE_THRESHOLD_BYTES` go to the large-file manifest, the
rest to the normal list, in listing order. -/
def scan_folder_with_sizes (threshold : Int) : List RcloneEntry → List String × List LargeFileRec
  | [] => ([], [])
  | e :: rest =>
    let acc := scan_folder_with_sizes threshold rest
    if e.size > threshold then (acc.1, ⟨e.path, e.size, sizeGb e.size⟩ :: acc.2)
    else (e.path :: acc.1, acc.2)

/-- How the `rclone lsjson` subprocess of `scan_folder_with_sizes` ended. -/
inductive ScanOutcome
  | ok (entries : List RcloneEntry)
  | calledProcessError
  | timeoutExpired
  | jsonDecodeError
deriving DecidableEq, Repr

/-- Full result of `scan_folder_with_sizes`: the partition on success, and
`([], [])` on `CalledProcessError`, `TimeoutExpired` or
`JSONDecodeError` (each branch logs and returns the empty lists). -/
def scanFolderResult (threshold : Int) : ScanOutcome → List String × List LargeFileRec
  | ScanOutcome.ok entries => scan_folder_with_sizes threshold entries
  | ScanOutcome.calledProcessError => ([], [])
  | ScanOutcome.timeoutExpired => ([], [])
  | ScanOutcome.jsonDecodeError => ([], [])

/-- What one iteration of `run_mapper`'s scan loop did to a folder. -/
structure MapperFolderResult where
  listObjectUploaded : Bool
  largeObjectUploaded : Bool
  markedScanned : Bool
  addedToFailed : Bool
deriving DecidableEq, Repr

/-- Per-folder body of `run_mapper` (lines 835-867): scan, then always
attempt `upload_file_list` (which uploads an empty `_List.txt` when the
normal list is empty); on upload failure record the folder as failed and
continue; otherwise upload the large manifest when non-empty and call
`mark_folder_scanned`. -/
def run_mapper_folder (threshold : Int) (scan : ScanOutcome)
    (uploadListOk uploadLargeOk : Bool) : MapperFolderResult :=
  let nl := scanFolderResult threshold scan
  if !uploadListOk then
    ⟨false, false, false, true⟩
  else
    ⟨true, decide (nl.2 ≠ []) && uploadLargeOk, true, false⟩

/-- Resume gate of `run_mapper` (lines 804-826): a folder is skipped by a
later run precisely when its `_List.txt` object exists
(`check_list_exists`). -/
def mapperResumeSkipsFolder (listObjectExists : Bool) : Bool :=
  listObjectExists

/-! ## Claim C8: progress-document updates

Embedding of the Zipper's progress documents and update functions
(`python_zipper-v6.py`, lines 317-463) and the Unzipper's
(`python_unzipper-v6.py`, lines 329-387).  Missing JSON fields read as
empty/false, so a document is a record.  `_update_progress_safe` performs
load → update-in-place → save; the Zipper's `save_progress` first applies
`prune_progress_files`, the Unzipper's does not prune.  Python's
`list(set(...))` materialises a set in unspecified order; it is modelled
by `dedup` of the concatenation — only membership of the result is
relied upon. -/

/-- Zipper per-folder progress document. -/
structure ZipProgress where
  completed_keys : List String
  completed_files : List String
  large_files_done : List String
  folder_complete : Bool
deriving DecidableEq, Repr

/-- `existing = set(progress["completed_files"]); existing.update(files);
list(existing)` — union as a duplicate-free list. -/
def setUnionList (a b : List String) : List String :=
  (a ++ b).dedup

/-- Update body of `mark_part_complete(folder, s3_key, files_in_part)`. -/
def mark_part_complete_update (s3Key : String) (filesInPart : List String)
    (p : ZipProgress) : ZipProgress :=
  { p with
    completed_keys :=
      if p.completed_keys.contains s3Key then p.completed_keys
      else p.completed_keys ++ [s3Key],
    completed_files := setUnionList p.completed_files filesInPart }

/-- Update body of `mark_large_file_complete(folder, file_path)`. -/
def mark_large_file_complete_update (filePath : String) (p : ZipProgress) : ZipProgress :=
  { p with
    large_files_done :=
      if p.large_files_done.contains filePath then p.large_files_done
      else p.large_files_done ++ [filePath] }

/-- Update body of the Zipper's `mark_folder_complete(folder)`. -/
def zipper_mark_folder_complete_update (p : ZipProgress) : ZipProgress :=
  { p with folder_complete := true }

/-- `prune_progress_files`: keep only the newest `max_files` entries of
`completed_files` (`completed_files[-max_files:]`). -/
def prune_progress_files (maxFiles : Nat) (p : ZipProgress) : ZipProgress :=
  if p.completed_files.length > maxFiles then
    { p with completed_files := p.completed_files.drop (p.completed_files.length - maxFiles) }
  else p

/-- The three kinds of Zipper progress update. -/
inductive ZipUpdate
  | part (s3Key : String) (filesInPart : List String)
  | largeFile (filePath : String)
  | complete
deriving DecidableEq, Repr

/-- Apply a Zipper update function to the loaded document. -/
def applyZipUpdate : ZipUpdate → ZipProgress → ZipProgress
  | ZipUpdate.part k fs, p => mark_part_complete_update k fs p
  | ZipUpdate.largeFile f, p => mark_large_file_complete_update f p
  | ZipUpdate.complete, p => zipper_mark_folder_complete_update p

/-- Document written back by the Zipper's `_update_progress_safe`:
the update, then `save_progress` which prunes with
`MAX_PROGRESS_FILES = 5000`. -/
def zipperSavedDoc (u : ZipUpdate) (p : ZipProgress) : ZipProgress :=
  prune_progress_files MAX_PROGRESS_FILES (applyZipUpdate u p)

/-- Unzipper per-folder progress document. -/
structure UnzipProgress where
  processed_keys : List String
  folder_complete : Bool
deriving DecidableEq, Repr

/-- Update body of `mark_zip_processed(folder, s3_key)` (the
`folder_complete` default-insertion is a no-op on the record model). -/
def mark_zip_processed_update (s3Key : String) (q : UnzipProgress) : UnzipProgress :=
  { q with
    processed_keys :=
      if q.processed_keys.contains s3Key then q.processed_keys
      else q.processed_keys ++ [s3Key] }

/-- Update body of the Unzipper's `mark_folder_complete(folder)`. -/
def unzip_mark_folder_complete_update (q : UnzipProgress) : UnzipProgress :=
  { q with folder_complete := true }

/-- The two kinds of Unzipper progress update. -/
inductive UnzipUpdate
  | processed (s3Key : String)
  | complete
deriving DecidableEq, Repr

/-- Document written back by the Unzipper's `_update_progress_safe`
(its `save_progress` does not prune). -/
def unzipperSavedDoc : UnzipUpdate → UnzipProgress → UnzipProgress
  | UnzipUpdate.processed k, q => mark_zip_processed_update k q
  | UnzipUpdate.complete, q => unzip_mark_folder_complete_update q

/-! ## Python string primitives

Embeddings of the Python `str` operations the scripts use, on `List Char`
(Python strings are sequences of code points).  `str.replace(old, new)`
replaces every non-overlapping occurrence left to right; the embedding
uses the remaining length as structural fuel (one character or one match
is consumed per step, so the fuel never runs out).  The unused
empty-pattern case of `replace` is modelled as a no-op.  `str.split(sep)`
with a one-character separator keeps empty segments and always returns at
least one segment. -/

/-- Worker for Python `str.replace`, on explicit fuel. -/
def pyReplaceAux (pat rep : List Char) : Nat → List Char → List Char
  | 0, s => s
  | _fuel + 1, [] => []
  | fuel + 1, c :: rest =>
    if !pat.isEmpty && pat.isPrefixOf (c :: rest) then
      rep ++ pyReplaceAux pat rep fuel ((c :: rest).drop pat.length)
    else
      c :: pyReplaceAux pat rep fuel rest

/-- Python `s.replace(pat, rep)` for a non-empty pattern. -/
def pyReplace (s pat rep : List Char) : List Char :=
  pyReplaceAux pat rep s.length s

/-- Python `s.split(sep)` for a one-character separator. -/
def pySplitChar (sep : Char) : List Char → List (List Char)
  | [] => [[]]
  | c :: rest =>
    if c = sep then [] :: pySplitChar sep rest
    else
      match pySplitChar sep rest with
      | [] => [[c]]
      | h :: t => (c :: h) :: t

/-! ## Claim C3: the per-batch split-key computation

Embedding of the key computation of `pipeline_worker`
(`python_zipper-v6.py`, lines 837-844):

    ext = base_s3_key.split('.')[-1]
    base = base_s3_key.replace(f".{ext}", "")
    current_s3_key = f"{base}_Split{split_index}.{ext}"

Note `replace` removes every occurrence of `.ext`, not only the trailing
one. -/

/-- Archive key used by the split loop at a given `split_index`. -/
def zipperSplitKey (baseKey : String) (splitIndex : Nat) : String :=
  if splitIndex = 0 then baseKey
  else
    let ext := (pySplitChar ('.') baseKey.data).getLastD []
    let base := pyReplace baseKey.data (('.') :: ext) []
    String.mk (base ++ ("_Split".data ++ (toString splitIndex).data ++ ('.') :: ext))

/-- Modelled from the spec wording of C3: at `split_index ≥ 1` the key is
the base key with its trailing `.zip` replaced by `_Split<i>.zip`, the
rest of the key unchanged. -/
def specSplitKey (baseKey : String) (splitIndex : Nat) : String :=
  if splitIndex = 0 then baseKey
  else
    String.mk (baseKey.data.take (baseKey.data.length - 4) ++
      ("_Split".data ++ (toString splitIndex).data ++ ".zip".data))

/-! ## Claim C6: natural sorting of a folder's archive keys

Embedding of `list_s3_zips_for_folder` and its `natural_sort_key`
(`python_unzipper-v6.py`, lines 482-507):

    def natural_sort_key(s):
        return [int(t) if t.isdigit() else t.lower() for t in re.split(r'(\d+)', s)]
    all_keys.sort(key=natural_sort_key)

`re.split(r'(\d+)', s)` alternates maximal digit-free chunks with captured
maximal digit runs, beginning and ending with a (possibly empty)
digit-free chunk, so the key alternates lowercased string tokens (even
positions) and integer tokens (odd positions), and comparing two such
keys never compares an `int` against a `str`.  Digits and lowercasing are
modelled at ASCII — the keys being sorted are outputs of `sanitize_name`
plus ASCII suffixes, hence ASCII.  The cross-type comparison (unreachable
on such keys) is fixed as `int < str` to make the order total.  Python's
stable `sort` by key is modelled as an insertion sort by the same key
order; the proved characterisation (a sorted permutation of the filtered
listing) is implementation-independent. -/

/-- One token of `natural_sort_key`. -/
inductive PyTok
  | strTok (s : List Char)
  | intTok (n : Nat)
deriving DecidableEq, Repr

/-- `int(t)` on a run of ASCII digits. -/
def digitsToNat (ds : List Char) : Nat :=
  ds.foldl (fun acc c => acc * 10 + (c.toNat - 48)) 0

/-- Worker for `natural_sort_key`, on explicit fuel (each round consumes
the leading digit-free chunk plus a non-empty digit run). -/
def natKeyAux : Nat → List Char → List PyTok
  | 0, _ => []
  | fuel + 1, s =>
    let u := s.takeWhile (fun c => !c.isDigit)
    let r := s.dropWhile (fun c => !c.isDigit)
    if r.isEmpty then [PyTok.strTok (u.map Char.toLower)]
    else
      PyTok.strTok (u.map Char.toLower) ::
        PyTok.intTok (digitsToNat (r.takeWhile Char.isDigit)) ::
          natKeyAux fuel (r.dropWhile Char.isDigit)

/-- `natural_sort_key(s)`. -/
def natural_sort_key (s : String) : List PyTok :=
  natKeyAux (s.data.length + 1) s.data

/-- Python string `<` (lexicographic on code points). -/
def pyStrLtChars : List Char → List Char → Bool
  | [], [] => false
  | [], _ :: _ => true
  | _ :: _, [] => false
  | a :: as, b :: bs =>
    if a < b then true
    else if b < a then false
    else pyStrLtChars as bs

/-- Python `<` on key tokens; the `int` versus `str` case (a `TypeError`
in Python, unreachable between alternating keys) is fixed as `int < str`. -/
def tokLt : PyTok → PyTok → Bool
  | PyTok.intTok a, PyTok.intTok b => a < b
  | PyTok.strTok a, PyTok.strTok b => pyStrLtChars a b
  | PyTok.intTok _, PyTok.strTok _ => true
  | PyTok.strTok _, PyTok.intTok _ => false

/-- Python list `<` on keys (lexicographic, shorter prefix first). -/
def keyLt : List PyTok → List PyTok → Bool
  | [], [] => false
  | [], _ :: _ => true
  | _ :: _, [] => false
  | a :: as, b :: bs =>
    if tokLt a b then true
    else if tokLt b a then false
    else keyLt as bs

/-- Strict natural order on keys: `natural_sort_key a < natural_sort_key b`. -/
def natLt (a b : String) : Bool :=
  keyLt (natural_sort_key a) (natural_sort_key b)

/-- The sort order used on archive keys: `a` may precede `b` iff
`b`'s key is not strictly below `a`'s. -/
def natLeRel (a b : String) : Prop :=
  natLt b a = false

instance : DecidableRel natLeRel :=
  fun a b => instDecidableEqBool (natLt b a) false

/-- Python `key.endswith('.zip')`. -/
def pyEndsWithZip (k : String) : Bool :=
  (".zip").data.isSuffixOf k.data

/-- `list_s3_zips_for_folder`: keep the listed keys ending in `.zip` and
sort them by `natural_sort_key`. -/
def list_s3_zips_for_folder (listing : List String) : List String :=
  List.insertionSort natLeRel (listing.filter pyEndsWithZip)

/-! ## Claim C2: `sanitize_name`

Embedding of `sanitize_name` / `safe_encode_filename`, textually identical
in `python_zipper-v6.py` (lines 190-237), `python_unzipper-v6.py` (lines
177-199) and `master-mapper-v4.py` (lines 260-278):

    def safe_encode_filename(filename):
        try:
            filename.encode('ascii'); return filename
        except UnicodeEncodeError:
            return unicodedata.normalize('NFC', filename)
    def sanitize_name(name):
        safe_name = safe_encode_filename(name)
        return quote(safe_name, safe='').replace('%20', '_').replace('%2F', '_')

`urllib.parse.quote` percent-encodes the UTF-8 bytes of the string,
leaving a byte literal exactly when it is in the always-safe set — ASCII
letters, digits, and `_`, `.`, `-`, `~` (with `safe=''` adding nothing) —
and uses uppercase hex.  Unicode NFC normalisation is a large external
table; it enters the embedding as a parameter `nfc` about which only the
Unicode fact "NFC is the identity on ASCII strings" is assumed where
needed. -/

/-- UTF-8 encoding of one code point. -/
def utf8EncodeChar (c : Char) : List Nat :=
  let n := c.toNat
  if n < 128 then [n]
  else if n < 2048 then [192 + n / 64, 128 + n % 64]
  else if n < 65536 then [224 + n / 4096, 128 + (n / 64) % 64, 128 + n % 64]
  else [240 + n / 262144, 128 + (n / 4096) % 64, 128 + (n / 64) % 64, 128 + n % 64]

/-- UTF-8 byte sequence of a string. -/
def utf8Bytes (s : List Char) : List Nat :=
  (s.map utf8EncodeChar).flatten

/-- Uppercase hexadecimal digit. -/
def hexDigit (n : Nat) : Char :=
  if n < 10 then Char.ofNat (48 + n) else Char.ofNat (55 + n)

/-- The bytes `urllib.parse.quote` leaves literal when `safe=''`:
ASCII letters, digits, and `_ . - ~`. -/
def quoteSafeByte (b : Nat) : Bool :=
  (65 ≤ b && b ≤ 90) || (97 ≤ b && b ≤ 122) || (48 ≤ b && b ≤ 57) ||
    b == 95 || b == 46 || b == 45 || b == 126

/-- Only ASCII letters and digits — the safe set the C2 claim asserts. -/
def strictSafeByte (b : Nat) : Bool :=
  (65 ≤ b && b ≤ 90) || (97 ≤ b && b ≤ 122) || (48 ≤ b && b ≤ 57)

/-- Percent-encoding of one byte under a given safe predicate. -/
def quoteByte (safe : Nat → Bool) (b : Nat) : List Char :=
  if safe b then [Char.ofNat b] else ['%', hexDigit (b / 16), hexDigit (b % 16)]

/-- `urllib.parse.quote` with a given safe predicate on bytes. -/
def pyQuote (safe : Nat → Bool) (s : List Char) : List Char :=
  ((utf8Bytes s).map (quoteByte safe)).flatten

/-- `filename.encode('ascii')` succeeds iff all code points are below 128. -/
def isAsciiString (s : List Char) : Bool :=
  s.all (fun c => c.toNat < 128)

/-- `safe_encode_filename`: a pure-ASCII name is returned unchanged,
otherwise it is NFC-normalised. -/
def safe_encode_filename (nfc : List Char → List Char) (s : List Char) : List Char :=
  if isAsciiString s then s else nfc s

/-- `sanitize_name`, common to Mapper, Zipper and Unzipper. -/
def sanitize_name (nfc : List Char → List Char) (name : List Char) : List Char :=
  pyReplace
    (pyReplace (pyQuote quoteSafeByte (safe_encode_filename nfc name))
      (("%20").data) (("_").data))
    (("%2F").data) (("_").data)

/-- Modelled from the spec wording of C2: NFC-normalise, percent-encode
every character that is not an ASCII letter or digit, then replace `%20`
and `%2F` by `_`. -/
def specSanitizeClaim (nfc : List Char → List Char) (name : List Char) : List Char :=
  pyReplace
    (pyReplace (pyQuote strictSafeByte (nfc name)) (("%20").data) (("_").data))
    (("%2F").data) (("_").data)

/-- Modelled from the amended spec wording of C2: as the claim, but the
characters left unencoded are the ASCII alphanumerics together with
`_ . - ~`. -/
def specSanitizeAmended (nfc : List Char → List Char) (name : List Char) : List Char :=
  pyReplace
    (pyReplace (pyQuote quoteSafeByte (nfc name)) (("%20").data) (("_").data))
    (("%2F").data) (("_").data)

end RclonePipeline

namespace RclonePipeline

/-! ## Theorems for C10 and C1 -/

/-- C10: for every required byte size, when the free-disk-space query inside
`check_disk_space_for_file` raises an OS error the function returns `true`,
so the Zipper's pre-zip verification passes vacuously and archive
construction proceeds with no established space guarantee. -/
theorem check_disk_space_fails_open (requiredBytes : ℚ) :
    check_disk_space_for_file requiredBytes none = true ∧
    zipperPreZipStep requiredBytes none = PreZipOutcome.proceedToZip := by
  constructor
  · rfl
  · rfl

/-- C1: `folder_complete` is written only when no sub-unit failed.  If the
Zipper ran the normal pipeline and marks the folder then every batch
worker returned success; if it ran the large pipeline then no large-file
transfer failed; if the Unzipper had remaining archives and marks the
folder then every remaining archive was processed successfully. -/
theorem folder_complete_only_on_zero_failures
    (files remainingLarge : List String) (zipResults : List Bool)
    (largeFailures : List String)
    (ukeys uproc : List String) (uresults : List Bool)
    (hz : zipperSetsFolderComplete files remainingLarge zipResults largeFailures = true)
    (hu : unzipperSetsFolderComplete false ukeys uproc uresults = true) :
    (files.isEmpty = false → ∀ r ∈ zipResults, r = true) ∧
    (remainingLarge.isEmpty = false → largeFailures = []) ∧
    ((unzipRemaining ukeys uproc).isEmpty = false → ∀ r ∈ uresults, r = true) := by
  refine ⟨?_, ?_, ?_⟩
  · intro hne r hr
    simp [zipperSetsFolderComplete, runZipPipelineFailed, hne] at hz
    cases r
    · exact absurd hr hz.1
    · rfl
  · intro hne
    simp [zipperSetsFolderComplete, hne] at hz
    exact hz.2
  · intro hne r hr
    rcases hukeys : ukeys.isEmpty with _ | _
    · simp [unzipperSetsFolderComplete, hukeys, hne] at hu
      cases r
      · exact absurd hr hu
      · rfl
    · simp [unzipperSetsFolderComplete, hukeys] at hu

/-- Witness for C1 at a concrete run: one batch worker and one archive, all
successful, no large failures. -/
theorem folder_complete_only_on_zero_failures_witness :
    (([ "a.txt" ] : List String).isEmpty = false →
      ∀ r ∈ ([true] : List Bool), r = true) ∧
    (([ "big.bin" ] : List String).isEmpty = false → ([] : List String) = []) ∧
    ((unzipRemaining ["p/A_Part1.zip"] []).isEmpty = false →
      ∀ r ∈ ([true] : List Bool), r = true) :=
  folder_complete_only_on_zero_failures
    ["a.txt"] ["big.bin"] [true] [] ["p/A_Part1.zip"] [] [true]
    (by decide) (by decide)

/-! ## Theorems for C4 -/

/-- Helper for C4: unfolding one rate-limited iteration of the retry loop. -/
theorem s3RetryAux_rate_limit_step (script : Nat → S3CallOutcome)
    (mr md rem attempt elapsed : Nat) (lastE : Option S3CallOutcome) (code : String)
    (hnd : ¬ elapsed > md) (hscript : script attempt = S3CallOutcome.clientError code)
    (hrl : isRateLimitCode code = true) :
    s3RetryAux script mr md (rem + 1) attempt elapsed lastE =
      s3RetryAux script mr md rem (attempt + 1) (elapsed + rateLimitBackoff attempt)
        (some (S3CallOutcome.clientError code)) := by
  unfold s3RetryAux
  rw [if_neg hnd, hscript]
  simp only [hrl, if_true]
  cases rem <;> rfl

/-- Helper for C4: running the retry loop on attempts that are all
rate-limited consumes one loop iteration per rate-limited response and
accumulates the capped backoffs, ending by raising the last exception. -/
theorem s3RetryAux_all_rate_limited (script : Nat → S3CallOutcome)
    (codeF : Nat → String) (maxRetries maxDuration : Nat) :
    ∀ r attempt elapsed lastE,
      (∀ i, attempt ≤ i → i < attempt + (r + 1) →
        script i = S3CallOutcome.clientError (codeF i) ∧ isRateLimitCode (codeF i) = true) →
      elapsed + totalRateLimitBackoff attempt (r + 1) ≤ maxDuration →
      s3RetryAux script maxRetries maxDuration (r + 1) attempt elapsed lastE =
        (RetryResult.raisedLast (S3CallOutcome.clientError (codeF (attempt + r))),
          elapsed + totalRateLimitBackoff attempt (r + 1)) := by
  intro r
  induction r with
  | zero =>
    intro attempt elapsed lastE hrl hdur
    have hs := hrl attempt (le_refl _) (by omega)
    have hnd : ¬ elapsed > maxDuration := by
      simp only [totalRateLimitBackoff] at hdur
      omega
    simp only [s3RetryAux, if_neg hnd, hs.1, hs.2, if_pos, totalRateLimitBackoff,
      Nat.add_zero]
  | succ n ih =>
    intro attempt elapsed lastE hrl hdur
    have hs := hrl attempt (le_refl _) (by omega)
    have hnd : ¬ elapsed > maxDuration := by
      simp only [totalRateLimitBackoff] at hdur
      omega
    rw [s3RetryAux_rate_limit_step script maxRetries maxDuration (n + 1) attempt elapsed
      lastE (codeF attempt) hnd hs.1 hs.2]
    rw [ih (attempt + 1) (elapsed + rateLimitBackoff attempt)
      (some (S3CallOutcome.clientError (codeF attempt)))
      (fun i h1 h2 => hrl i (by omega) (by omega))
      (by simp only [totalRateLimitBackoff] at hdur ⊢; omega)]
    have h1 : attempt + 1 + n = attempt + (n + 1) := by omega
    have h2 : elapsed + rateLimitBackoff attempt + totalRateLimitBackoff (attempt + 1) (n + 1) =
        elapsed + totalRateLimitBackoff attempt (n + 1 + 1) := by
      simp only [totalRateLimitBackoff]
      omega
    rw [h1, h2]

/-- C4 counterexample: with the default budget (`max_retries = 3`,
`max_duration = 300`), three consecutive `SlowDown` responses exhaust the
attempt budget — the wrapper raises the last rate-limit exception after
only 4 + 8 + 16 = 28 seconds of backoff, far below the 300-second duration
cap.  This refutes the claim that rate-limit errors do not consume normal
retry attempts. -/
theorem rate_limits_exhaust_attempts_counterexample :
    s3_operation_with_retry (fun _ => S3CallOutcome.clientError ("SlowDown"))
        S3_MAX_RETRIES MAX_RETRY_DURATION =
      (RetryResult.raisedLast (S3CallOutcome.clientError ("SlowDown")), 28) ∧
    28 < MAX_RETRY_DURATION := by
  constructor
  · rfl
  · decide

/-- C4 amended: a rate-limit error (`SlowDown`, `503`,
`RequestLimitExceeded`) triggers a backoff `min(2^(attempt+2), 60)` capped
at 60 seconds, but it does consume one of the normal retry attempts: a
sequence of `max_retries` rate-limited responses whose total backoff stays
within the duration cap exhausts the attempt budget and raises the last
rate-limit exception. -/
theorem rate_limit_backoff_capped_but_consumes_attempts
    (script : Nat → S3CallOutcome) (codeF : Nat → String)
    (maxRetries maxDuration : Nat) (hpos : 0 < maxRetries)
    (hrl : ∀ i, i < maxRetries →
      script i = S3CallOutcome.clientError (codeF i) ∧ isRateLimitCode (codeF i) = true)
    (hdur : totalRateLimitBackoff 0 maxRetries ≤ maxDuration) :
    (∀ attempt, rateLimitBackoff attempt ≤ 60) ∧
    s3_operation_with_retry script maxRetries maxDuration =
      (RetryResult.raisedLast (S3CallOutcome.clientError (codeF (maxRetries - 1))),
        totalRateLimitBackoff 0 maxRetries) := by
  constructor
  · intro attempt
    exact Nat.min_le_right _ _
  · obtain ⟨r, rfl⟩ : ∃ r, maxRetries = r + 1 := ⟨maxRetries - 1, by omega⟩
    have := s3RetryAux_all_rate_limited script codeF (r + 1) maxDuration r 0 0 none
      (fun i h1 h2 => hrl i (by omega)) (by simpa using hdur)
    simpa [s3_operation_with_retry] using this

/-- Witness for C4 amended at the default configuration and an
all-`SlowDown` script. -/
theorem rate_limit_backoff_capped_but_consumes_attempts_witness :
    (∀ attempt, rateLimitBackoff attempt ≤ 60) ∧
    s3_operation_with_retry (fun _ => S3CallOutcome.clientError ("SlowDown")) 3 300 =
      (RetryResult.raisedLast (S3CallOutcome.clientError ("SlowDown")),
        totalRateLimitBackoff 0 3) :=
  rate_limit_backoff_capped_but_consumes_attempts
    (fun _ => S3CallOutcome.clientError ("SlowDown")) (fun _ => "SlowDown") 3 300
    (by decide) (fun i _ => ⟨rfl, rfl⟩) (by decide)

/-! ## Theorem for C5 -/

/-- C5: an archive that downloaded and extracted but whose extracted size
exceeds `MAX_ZIP_BOMB_RATIO` (100) times its on-disk size makes the
Unzipper's per-archive worker report an ERROR status and return failure,
without reaching the upload step and without reaching
`mark_zip_processed`, so the key is not added to `processed_keys`. -/
theorem zip_bomb_refused (env : UnzipArchiveEnv)
    (hdl : env.downloadOk = true) (hex : env.fileExists = true)
    (hv : env.zipValid = true) (hrc : env.unzipRc = 0 ∨ env.unzipRc = 1)
    (hpos : 0 < env.zipSizeMB)
    (hbomb : env.extractedSizeMB > maxZipBombCap * env.zipSizeMB) :
    (download_unzip_upload_one env).success = false ∧
    (download_unzip_upload_one env).uploadAttempted = false ∧
    (download_unzip_upload_one env).markZipProcessedReached = false ∧
    "ERROR" ∈ (download_unzip_upload_one env).states := by
  have hratio : env.zipSizeMB > 0 ∧ env.extractedSizeMB / env.zipSizeMB > maxZipBombCap := by
    refine ⟨hpos, ?_⟩
    rw [gt_iff_lt, lt_div_iff₀ hpos]
    exact hbomb
  have hrcn : ¬ (env.unzipRc ≠ 0 ∧ env.unzipRc ≠ 1) := by
    rcases hrc with h | h <;> simp [h]
  simp [download_unzip_upload_one, hdl, hex, hv, hrcn, hratio]

/-- Witness for C5: a 1 MB archive that extracts to 101 MB. -/
theorem zip_bomb_refused_witness :
    (download_unzip_upload_one ⟨true, true, true, 1, 0, 101, true, true⟩).success = false ∧
    (download_unzip_upload_one ⟨true, true, true, 1, 0, 101, true, true⟩).uploadAttempted = false ∧
    (download_unzip_upload_one
        ⟨true, true, true, 1, 0, 101, true, true⟩).markZipProcessedReached = false ∧
    "ERROR" ∈ (download_unzip_upload_one ⟨true, true, true, 1, 0, 101, true, true⟩).states :=
  zip_bomb_refused ⟨true, true, true, 1, 0, 101, true, true⟩ rfl rfl rfl (Or.inl rfl)
    (by norm_num) (by norm_num [maxZipBombCap])

/-! ## Theorems for C7 and C9 -/

/-- C7: the Mapper's partition is exact.  The normal list is precisely the
paths of the enumerated entries with `size ≤ threshold` in order, the
large-file manifest is precisely the records (with
`size_gb = round(size / 2^30, 2)`) of the entries with `size > threshold`
in order, and every enumerated entry lands in exactly one of the two
lists. -/
theorem mapper_partition_exact (t : Int) (entries : List RcloneEntry) :
    (scan_folder_with_sizes t entries).1 =
      (entries.filter (fun e => decide (e.size ≤ t))).map (fun e => e.path) ∧
    (scan_folder_with_sizes t entries).2 =
      (entries.filter (fun e => decide (e.size > t))).map
        (fun e => ⟨e.path, e.size, sizeGb e.size⟩) ∧
    (scan_folder_with_sizes t entries).1.length +
      (scan_folder_with_sizes t entries).2.length = entries.length := by
  induction entries with
  | nil => exact ⟨rfl, rfl, rfl⟩
  | cons e rest ih =>
    by_cases h : e.size > t
    · have h' : ¬ e.size ≤ t := not_le.mpr h
      refine ⟨?_, ?_, ?_⟩
      · simp [scan_folder_with_sizes, h, h', ih.1]
      · simp [scan_folder_with_sizes, h, h', ih.2.1]
      · simp only [scan_folder_with_sizes, if_pos h, List.length_cons]
        omega
    · have h' : e.size ≤ t := not_lt.mp h
      refine ⟨?_, ?_, ?_⟩
      · simp [scan_folder_with_sizes, h, h', ih.1]
      · simp [scan_folder_with_sizes, h, h', ih.2.1]
      · simp only [scan_folder_with_sizes, if_neg h, List.length_cons]
        omega

/-- C9: evaluation of the Mapper at a folder whose recursive listing times
out (and at one whose JSON fails to decode), with the list upload
succeeding.  The scan returns empty lists, yet `run_mapper` still uploads
a (now empty) normal-file list object and marks the folder scanned, and
the resume gate then makes later runs skip — not rescan — the folder.
This contradicts the specified skip-without-upload behaviour. -/
theorem mapper_listing_failure_still_uploads_list :
    scanFolderResult 20 ScanOutcome.timeoutExpired = ([], []) ∧
    run_mapper_folder 20 ScanOutcome.timeoutExpired true true =
      ⟨true, false, true, false⟩ ∧
    scanFolderResult 20 ScanOutcome.jsonDecodeError = ([], []) ∧
    run_mapper_folder 20 ScanOutcome.jsonDecodeError true true =
      ⟨true, false, true, false⟩ ∧
    mapperResumeSkipsFolder true = true := by
  refine ⟨rfl, rfl, rfl, rfl, rfl⟩

/-! ## Theorems for C8 -/

/-- Helper for C8: appending-if-absent preserves membership. -/
theorem mem_appendIfAbsent {x k : String} {l : List String} (hx : x ∈ l) :
    x ∈ (if l.contains k then l else l ++ [k]) := by
  split
  · exact hx
  · exact List.mem_append_left _ hx

/-- C8 counterexample: with 5001 entries already in `completed_files`, any
progress update — here marking a large file done — writes back a document
from which the oldest completed-file entry has been pruned away, so an
update is not purely additive. -/
theorem progress_update_prunes_completed_files_counterexample :
    "old" ∈ (ZipProgress.mk [] ("old" :: List.replicate 5000 "x") [] false).completed_files ∧
    "old" ∉ (zipperSavedDoc (ZipUpdate.largeFile ("big.bin"))
      (ZipProgress.mk [] ("old" :: List.replicate 5000 "x") [] false)).completed_files := by
  have hgen : ∀ (xs : List String) (a : String) (ck lfd : List String) (fc : Bool),
      xs.length = MAX_PROGRESS_FILES →
      prune_progress_files MAX_PROGRESS_FILES (ZipProgress.mk ck (a :: xs) lfd fc) =
        ZipProgress.mk ck xs lfd fc := by
    intro xs a ck lfd fc h
    unfold prune_progress_files
    have hc : (ZipProgress.mk ck (a :: xs) lfd fc).completed_files.length >
        MAX_PROGRESS_FILES := by
      simp only [List.length_cons, h]
      omega
    rw [if_pos hc]
    have hdrop : (a :: xs).drop ((a :: xs).length - MAX_PROGRESS_FILES) = xs := by
      rw [List.length_cons, h, Nat.add_sub_cancel_left, List.drop_succ_cons,
        List.drop_zero]
    simp only [hdrop]
  constructor
  · exact List.mem_cons_self _ _
  · intro hmem
    have h1 : zipperSavedDoc (ZipUpdate.largeFile ("big.bin"))
        (ZipProgress.mk [] ("old" :: List.replicate 5000 "x") [] false) =
        prune_progress_files MAX_PROGRESS_FILES
          (ZipProgress.mk [] ("old" :: List.replicate 5000 "x") ["big.bin"] false) := rfl
    rw [h1, hgen (List.replicate 5000 "x") ("old") [] ["big.bin"] false
      (List.length_replicate _ _)] at hmem
    exact absurd (List.eq_of_mem_replicate hmem) (by decide)

/-- C8 amended: every Zipper progress update preserves membership of
`completed_keys` and every Unzipper update preserves membership of
`processed_keys`; neither ever resets `folder_complete` from true to
false.  (By the counterexample, `completed_files` itself is not
append-only: saves prune it to the newest `MAX_PROGRESS_FILES` entries.) -/
theorem progress_updates_monotone (u : ZipUpdate) (v : UnzipUpdate)
    (p : ZipProgress) (q : UnzipProgress) (x y : String)
    (hx : x ∈ p.completed_keys) (hy : y ∈ q.processed_keys)
    (hp : p.folder_complete = true) (hq : q.folder_complete = true) :
    x ∈ (zipperSavedDoc u p).completed_keys ∧
    (zipperSavedDoc u p).folder_complete = true ∧
    y ∈ (unzipperSavedDoc v q).processed_keys ∧
    (unzipperSavedDoc v q).folder_complete = true := by
  have hprune1 : ∀ r : ZipProgress,
      (prune_progress_files MAX_PROGRESS_FILES r).completed_keys = r.completed_keys := by
    intro r
    unfold prune_progress_files
    split <;> rfl
  have hprune2 : ∀ r : ZipProgress,
      (prune_progress_files MAX_PROGRESS_FILES r).folder_complete = r.folder_complete := by
    intro r
    unfold prune_progress_files
    split <;> rfl
  refine ⟨?_, ?_, ?_, ?_⟩
  · rw [zipperSavedDoc, hprune1]
    cases u with
    | part k fs => exact mem_appendIfAbsent hx
    | largeFile f => exact hx
    | complete => exact hx
  · rw [zipperSavedDoc, hprune2]
    cases u with
    | part k fs => exact hp
    | largeFile f => exact hp
    | complete => rfl
  · cases v with
    | processed k => exact mem_appendIfAbsent hy
    | complete => exact hy
  · cases v with
    | processed k => exact hq
    | complete => rfl

/-- Witness for C8 amended at a concrete document and one update of each
component. -/
theorem progress_updates_monotone_witness :
    "k1" ∈ (zipperSavedDoc (ZipUpdate.part ("k2") ["f2"])
      (ZipProgress.mk ["k1"] ["f1"] [] true)).completed_keys ∧
    (zipperSavedDoc (ZipUpdate.part ("k2") ["f2"])
      (ZipProgress.mk ["k1"] ["f1"] [] true)).folder_complete = true ∧
    "u1" ∈ (unzipperSavedDoc (UnzipUpdate.processed ("u2"))
      (UnzipProgress.mk ["u1"] true)).processed_keys ∧
    (unzipperSavedDoc (UnzipUpdate.processed ("u2"))
      (UnzipProgress.mk ["u1"] true)).folder_complete = true :=
  progress_updates_monotone (ZipUpdate.part ("k2") ["f2"]) (UnzipUpdate.processed ("u2"))
    (ZipProgress.mk ["k1"] ["f1"] [] true) (UnzipProgress.mk ["u1"] true)
    ("k1") ("u1") (by simp) (by simp) rfl rfl

/-! ## Theorems for C3 -/

/-- Helper: `pyReplaceAux` on the empty string. -/
theorem pyReplaceAux_nil (pat rep : List Char) (fuel : Nat) :
    pyReplaceAux pat rep fuel [] = [] := by
  cases fuel <;> rfl

/-- Helper: `isPrefixOf` is reflexive. -/
theorem isPrefixOf_self (l : List Char) : l.isPrefixOf l = true := by
  induction l with
  | nil => rfl
  | cons c t ih => simp [List.isPrefixOf, ih]

/-- Helper: replacing a non-empty pattern by nothing, when the pattern
occurs only as the trailing suffix, just removes that suffix. -/
theorem pyReplaceAux_unique_suffix (pat : List Char) (hp : pat ≠ []) :
    ∀ u : List Char,
      (∀ j, j < u.length → ¬ pat.isPrefixOf ((u ++ pat).drop j) = true) →
      pyReplaceAux pat [] (u ++ pat).length (u ++ pat) = u := by
  intro u
  induction u with
  | nil =>
    intro _
    obtain ⟨c, pat2, rfl⟩ : ∃ c pat2, pat = c :: pat2 := by
      cases pat with
      | nil => exact absurd rfl hp
      | cons c t => exact ⟨c, t, rfl⟩
    simp only [List.nil_append, List.length_cons]
    show pyReplaceAux (c :: pat2) [] (pat2.length + 1) (c :: pat2) = []
    simp only [pyReplaceAux, List.isEmpty_cons, Bool.not_false, Bool.true_and,
      isPrefixOf_self, if_true, List.nil_append]
    rw [show (c :: pat2).drop (c :: pat2).length = [] from List.drop_length _]
    exact pyReplaceAux_nil _ _ _
  | cons c u2 ih =>
    intro huniq
    have h0 : pat.isPrefixOf (c :: (u2 ++ pat)) = false := by
      have h := huniq 0 (by simp)
      exact Bool.eq_false_iff.mpr h
    simp only [List.cons_append, List.length_cons]
    show pyReplaceAux pat [] ((u2 ++ pat).length + 1) (c :: (u2 ++ pat)) = c :: u2
    simp only [pyReplaceAux, h0, Bool.and_false]
    rw [if_neg (by simp)]
    rw [ih (fun j hj => by
      have h := huniq (j + 1) (by simp only [List.length_cons]; omega)
      simpa [List.drop_succ_cons] using h)]

/-- Helper: `pySplitChar` never returns the empty list. -/
theorem pySplitChar_ne_nil (sep : Char) : ∀ s, pySplitChar sep s ≠ [] := by
  intro s
  cases s with
  | nil => simp [pySplitChar]
  | cons c rest =>
    simp only [pySplitChar]
    split
    · simp
    · split <;> simp

/-- Helper: splitting a separator-free string yields one segment. -/
theorem pySplitChar_no_sep (sep : Char) :
    ∀ t, t.all (fun c => !(c == sep)) = true → pySplitChar sep t = [t] := by
  intro t
  induction t with
  | nil => intro _; rfl
  | cons c rest ih =>
    intro h
    simp only [List.all_cons, Bool.and_eq_true] at h
    have hc : ¬ c = sep := by simpa using h.1
    simp [pySplitChar, hc, ih h.2]

/-- Helper: a string containing the separator splits into at least two
segments. -/
theorem pySplitChar_length_ge_two (sep : Char) :
    ∀ s t, (pySplitChar sep (s ++ sep :: t)).length ≥ 2 := by
  intro s
  induction s with
  | nil =>
    intro t
    have h := List.length_pos.mpr (pySplitChar_ne_nil sep t)
    simp [pySplitChar]
    omega
  | cons c s2 ih =>
    intro t
    by_cases hc : c = sep
    · subst hc
      have h := List.length_pos.mpr (pySplitChar_ne_nil c (s2 ++ c :: t))
      simp [pySplitChar]
      omega
    · simp only [List.cons_append, pySplitChar, if_neg hc]
      have h2 := ih t
      rcases hsplit : pySplitChar sep (s2 ++ sep :: t) with _ | ⟨hd, tl⟩
      · exact absurd hsplit (pySplitChar_ne_nil sep _)
      · rw [hsplit] at h2
        simp only [List.length_cons] at h2 ⊢
        omega

/-- Helper: the last segment of a split is the text after the last
separator. -/
theorem pySplitChar_getLastD_after_sep (sep : Char) :
    ∀ s t, t.all (fun c => !(c == sep)) = true →
      (pySplitChar sep (s ++ sep :: t)).getLastD [] = t := by
  intro s
  induction s with
  | nil =>
    intro t ht
    have hsplit : pySplitChar sep (([] : List Char) ++ sep :: t) = [] :: [t] := by
      simp [pySplitChar, pySplitChar_no_sep sep t ht]
    rw [hsplit]
    rfl
  | cons c s2 ih =>
    intro t ht
    by_cases hc : c = sep
    · subst hc
      have hstep : pySplitChar c ((c :: s2) ++ c :: t) =
          [] :: pySplitChar c (s2 ++ c :: t) := by
        simp [pySplitChar]
      rw [hstep, List.getLastD_cons]
      exact ih t ht
    · simp only [List.cons_append, pySplitChar, if_neg hc]
      rcases hsplit : pySplitChar sep (s2 ++ sep :: t) with _ | ⟨hd, tl⟩
      · exact absurd hsplit (pySplitChar_ne_nil sep _)
      · have h2 := pySplitChar_length_ge_two sep s2 t
        rw [hsplit] at h2
        have hih := ih t ht
        rw [hsplit] at hih
        obtain ⟨a, tl2, rfl⟩ : ∃ a tl2, tl = a :: tl2 := by
          cases tl with
          | nil => simp at h2
          | cons a tl2 => exact ⟨a, tl2, rfl⟩
        rw [List.getLastD_cons] at hih ⊢
        rw [List.getLastD_cons] at hih ⊢
        exact hih

/-- C3 counterexample: `str.replace` removes every occurrence of `.zip`,
so for the base key `a.zipb_Part1.zip` (which contains `.zip` mid-key)
the split key at index 1 is `ab_Part1_Split1.zip`, not the
`a.zipb_Part1_Split1.zip` the claim requires — the rest of the key is not
left unchanged. -/
theorem split_key_counterexample :
    zipperSplitKey ("a.zipb_Part1.zip") 1 = "ab_Part1_Split1.zip" ∧
    specSplitKey ("a.zipb_Part1.zip") 1 = "a.zipb_Part1_Split1.zip" ∧
    zipperSplitKey ("a.zipb_Part1.zip") 1 ≠ specSplitKey ("a.zipb_Part1.zip") 1 := by
  refine ⟨rfl, rfl, ?_⟩
  decide

/-- C3 amended: at `split_index = 0` the key is the base key; at
`split_index ≥ 1` the code removes every occurrence of `.<ext>` (with
`ext` the text after the last dot) and appends `_Split<i>.<ext>`, which
coincides with the claimed "trailing `.zip` replaced, rest unchanged"
exactly when `.zip` occurs in the base key only as its suffix. -/
theorem split_key_eq_spec_of_unique_suffix (u : List Char) (i : Nat) (hi : i ≠ 0)
    (huniq : ∀ j, j < u.length →
      ¬ (".zip").data.isPrefixOf ((u ++ (".zip").data).drop j) = true) :
    zipperSplitKey (String.mk (u ++ (".zip").data)) i =
      specSplitKey (String.mk (u ++ (".zip").data)) i := by
  have hzip : (".zip").data = ('.') :: ("zip").data := rfl
  unfold zipperSplitKey specSplitKey
  rw [if_neg hi, if_neg hi]
  show String.mk
      (pyReplace (u ++ (".zip").data)
        (('.') :: (pySplitChar ('.') (u ++ (".zip").data)).getLastD []) [] ++
        ("_Split".data ++ (toString i).data ++
          ('.') :: (pySplitChar ('.') (u ++ (".zip").data)).getLastD [])) =
    String.mk ((u ++ (".zip").data).take ((u ++ (".zip").data).length - 4) ++
      ("_Split".data ++ (toString i).data ++ (".zip").data))
  have hext : (pySplitChar ('.') (u ++ (".zip").data)).getLastD [] = ("zip").data := by
    rw [hzip]
    exact pySplitChar_getLastD_after_sep ('.') u ("zip").data (by decide)
  rw [hext]
  have hrep : pyReplace (u ++ (".zip").data) (('.') :: ("zip").data) [] = u := by
    rw [← hzip]
    exact pyReplaceAux_unique_suffix (".zip").data (by decide) u huniq
  rw [hrep]
  have htake : (u ++ (".zip").data).take ((u ++ (".zip").data).length - 4) = u := by
    have hlen : (u ++ (".zip").data).length = u.length + 4 := by simp
    rw [hlen, Nat.add_sub_cancel]
    exact List.take_left u _
  rw [htake, hzip]

/-- Witness for C3 amended at a realistic base key whose only `.zip` is
the suffix. -/
theorem split_key_eq_spec_of_unique_suffix_witness :
    zipperSplitKey (String.mk (("p/A_Part1").data ++ (".zip").data)) 1 =
      specSplitKey (String.mk (("p/A_Part1").data ++ (".zip").data)) 1 :=
  split_key_eq_spec_of_unique_suffix (("p/A_Part1").data) 1 (by decide) (by decide)

/-! ## Theorems for C6 -/

/-- Helper: Python string `<` is asymmetric. -/
theorem pyStrLtChars_asymm : ∀ a b, pyStrLtChars a b = true → pyStrLtChars b a = false := by
  intro a
  induction a with
  | nil =>
    intro b h
    cases b with
    | nil => simp [pyStrLtChars] at h
    | cons y bs => rfl
  | cons x as ih =>
    intro b h
    cases b with
    | nil => simp [pyStrLtChars] at h
    | cons y bs =>
      simp only [pyStrLtChars] at h ⊢
      by_cases hxy : x < y
      · rw [if_neg (lt_asymm hxy), if_pos hxy]
      · rw [if_neg hxy] at h
        by_cases hyx : y < x
        · rw [if_pos hyx] at h
          simp at h
        · rw [if_neg hyx] at h
          rw [if_neg hyx, if_neg hxy]
          exact ih bs h

/-- Helper: strings neither `<` nor `>` are equal. -/
theorem pyStrLtChars_eq_of_not :
    ∀ a b, pyStrLtChars a b = false → pyStrLtChars b a = false → a = b := by
  intro a
  induction a with
  | nil =>
    intro b h1 _
    cases b with
    | nil => rfl
    | cons y bs => simp [pyStrLtChars] at h1
  | cons x as ih =>
    intro b h1 h2
    cases b with
    | nil => simp [pyStrLtChars] at h2
    | cons y bs =>
      simp only [pyStrLtChars] at h1 h2
      by_cases hxy : x < y
      · rw [if_pos hxy] at h1
        simp at h1
      · by_cases hyx : y < x
        · rw [if_pos hyx] at h2
          simp at h2
        · rw [if_neg hxy, if_neg hyx] at h1
          rw [if_neg hyx, if_neg hxy] at h2
          have hxy2 : x = y := le_antisymm (not_lt.mp hyx) (not_lt.mp hxy)
          rw [hxy2, ih bs h1 h2]

/-- Helper: Python string `<` is transitive. -/
theorem pyStrLtChars_trans :
    ∀ a b c, pyStrLtChars a b = true → pyStrLtChars b c = true →
      pyStrLtChars a c = true := by
  intro a
  induction a with
  | nil =>
    intro b c h1 h2
    cases b with
    | nil => simp [pyStrLtChars] at h1
    | cons y bs =>
      cases c with
      | nil => simp [pyStrLtChars] at h2
      | cons z cs => rfl
  | cons x as ih =>
    intro b c h1 h2
    cases b with
    | nil => simp [pyStrLtChars] at h1
    | cons y bs =>
      cases c with
      | nil => simp [pyStrLtChars] at h2
      | cons z cs =>
        simp only [pyStrLtChars] at h1 h2 ⊢
        by_cases hxy : x < y
        · by_cases hyz : y < z
          · rw [if_pos (lt_trans hxy hyz)]
          · by_cases hzy : z < y
            · rw [if_neg hyz, if_pos hzy] at h2
              simp at h2
            · have hyz2 : y = z := le_antisymm (not_lt.mp hzy) (not_lt.mp hyz)
              rw [if_pos (hyz2 ▸ hxy)]
        · by_cases hyx : y < x
          · rw [if_neg hxy, if_pos hyx] at h1
            simp at h1
          · have hxy2 : x = y := le_antisymm (not_lt.mp hyx) (not_lt.mp hxy)
            rw [if_neg hxy, if_neg hyx] at h1
            subst hxy2
            by_cases hxz : x < z
            · rw [if_pos hxz]
            · by_cases hzx : z < x
              · rw [if_neg hxz, if_pos hzx] at h2
                simp at h2
              · rw [if_neg hxz, if_neg hzx] at h2
                rw [if_neg hxz, if_neg hzx]
                exact ih bs cs h1 h2

/-- Helper: token `<` is asymmetric. -/
theorem tokLt_asymm : ∀ a b, tokLt a b = true → tokLt b a = false := by
  intro a b h
  cases a with
  | strTok s1 =>
    cases b with
    | strTok s2 => exact pyStrLtChars_asymm s1 s2 h
    | intTok n => simp [tokLt] at h
  | intTok m =>
    cases b with
    | strTok s2 => rfl
    | intTok n =>
      simp only [tokLt, decide_eq_true_eq] at h
      simp only [tokLt, decide_eq_false_iff_not]
      omega

/-- Helper: tokens neither `<` nor `>` are equal. -/
theorem tokLt_eq_of_not : ∀ a b, tokLt a b = false → tokLt b a = false → a = b := by
  intro a b h1 h2
  cases a with
  | strTok s1 =>
    cases b with
    | strTok s2 => rw [pyStrLtChars_eq_of_not s1 s2 h1 h2]
    | intTok n => simp [tokLt] at h2
  | intTok m =>
    cases b with
    | strTok s2 => simp [tokLt] at h1
    | intTok n =>
      simp only [tokLt, decide_eq_false_iff_not] at h1 h2
      have : m = n := by omega
      rw [this]

/-- Helper: token `<` is transitive. -/
theorem tokLt_trans : ∀ a b c, tokLt a b = true → tokLt b c = true → tokLt a c = true := by
  intro a b c h1 h2
  cases a with
  | strTok s1 =>
    cases b with
    | strTok s2 =>
      cases c with
      | strTok s3 => exact pyStrLtChars_trans s1 s2 s3 h1 h2
      | intTok p => simp [tokLt] at h2
    | intTok n => simp [tokLt] at h1
  | intTok m =>
    cases b with
    | strTok s2 =>
      cases c with
      | strTok s3 => rfl
      | intTok p => simp [tokLt] at h2
    | intTok n =>
      cases c with
      | strTok s3 => rfl
      | intTok p =>
        simp only [tokLt, decide_eq_true_eq] at h1 h2 ⊢
        omega

/-- Helper: key `<` is asymmetric. -/
theorem keyLt_asymm : ∀ a b, keyLt a b = true → keyLt b a = false := by
  intro a
  induction a with
  | nil =>
    intro b h
    cases b with
    | nil => simp [keyLt] at h
    | cons y bs => rfl
  | cons x as ih =>
    intro b h
    cases b with
    | nil => simp [keyLt] at h
    | cons y bs =>
      simp only [keyLt] at h ⊢
      by_cases hxy : tokLt x y = true
      · rw [if_neg (by simp [tokLt_asymm x y hxy]), if_pos hxy]
      · rw [if_neg hxy] at h
        by_cases hyx : tokLt y x = true
        · rw [if_pos hyx] at h
          simp at h
        · rw [if_neg hyx] at h
          rw [if_neg hyx, if_neg hxy]
          exact ih bs h

/-- Helper: keys neither `<` nor `>` are equal. -/
theorem keyLt_eq_of_not : ∀ a b, keyLt a b = false → keyLt b a = false → a = b := by
  intro a
  induction a with
  | nil =>
    intro b h1 _
    cases b with
    | nil => rfl
    | cons y bs => simp [keyLt] at h1
  | cons x as ih =>
    intro b h1 h2
    cases b with
    | nil => simp [keyLt] at h2
    | cons y bs =>
      simp only [keyLt] at h1 h2
      by_cases hxy : tokLt x y = true
      · rw [if_pos hxy] at h1
        simp at h1
      · by_cases hyx : tokLt y x = true
        · rw [if_pos hyx] at h2
          simp at h2
        · rw [if_neg hxy, if_neg hyx] at h1
          rw [if_neg hyx, if_neg hxy] at h2
          have hxy2 : x = y := tokLt_eq_of_not x y (by simpa using hxy) (by simpa using hyx)
          rw [hxy2, ih bs h1 h2]

/-- Helper: key `<` is transitive. -/
theorem keyLt_trans : ∀ a b c, keyLt a b = true → keyLt b c = true → keyLt a c = true := by
  intro a
  induction a with
  | nil =>
    intro b c h1 h2
    cases b with
    | nil => simp [keyLt] at h1
    | cons y bs =>
      cases c with
      | nil => simp [keyLt] at h2
      | cons z cs => rfl
  | cons x as ih =>
    intro b c h1 h2
    cases b with
    | nil => simp [keyLt] at h1
    | cons y bs =>
      cases c with
      | nil => simp [keyLt] at h2
      | cons z cs =>
        simp only [keyLt] at h1 h2 ⊢
        by_cases hxy : tokLt x y = true
        · by_cases hyz : tokLt y z = true
          · rw [if_pos (tokLt_trans x y z hxy hyz)]
          · by_cases hzy : tokLt z y = true
            · rw [if_neg hyz, if_pos hzy] at h2
              simp at h2
            · have hyz2 : y = z :=
                tokLt_eq_of_not y z (by simpa using hyz) (by simpa using hzy)
              rw [if_pos (hyz2 ▸ hxy)]
        · by_cases hyx : tokLt y x = true
          · rw [if_neg hxy, if_pos hyx] at h1
            simp at h1
          · have hxy2 : x = y :=
              tokLt_eq_of_not x y (by simpa using hxy) (by simpa using hyx)
            rw [if_neg hxy, if_neg hyx] at h1
            subst hxy2
            by_cases hxz : tokLt x z = true
            · rw [if_pos hxz]
            · by_cases hzx : tokLt z x = true
              · rw [if_neg hxz, if_pos hzx] at h2
                simp at h2
              · rw [if_neg hxz, if_neg hzx] at h2
                rw [if_neg hxz, if_neg hzx]
                exact ih bs cs h1 h2

instance : IsTotal String natLeRel := by
  constructor
  intro a b
  by_cases h : natLt b a = false
  · exact Or.inl h
  · right
    have hba : natLt b a = true := by simpa using h
    exact keyLt_asymm _ _ hba

instance : IsTrans String natLeRel := by
  constructor
  intro a b c hab hbc
  by_cases h : natLt c a = true
  · exfalso
    by_cases hba : keyLt (natural_sort_key a) (natural_sort_key b) = true
    · exact absurd (keyLt_trans _ _ _ h hba) (by simpa [natLt] using hbc)
    · have heq : natural_sort_key a = natural_sort_key b :=
        keyLt_eq_of_not _ _ (by simpa using hba) hab
      have h2 : keyLt (natural_sort_key c) (natural_sort_key b) = true := heq ▸ h
      exact absurd h2 (by simpa [natLt] using hbc)
  · simpa using h

/-- C6: `list_s3_zips_for_folder` returns exactly the folder's `.zip` keys
(a permutation of the filtered listing) sorted by the natural key order,
in which digit runs compare numerically — concretely
`Part1 < Part1_Split1 < Part2 < Part10` — and the per-folder worker's
remaining-archive list preserves that order. -/
theorem archives_processed_in_natural_order (listing processedKeys : List String) :
    List.Sorted natLeRel (list_s3_zips_for_folder listing) ∧
    (list_s3_zips_for_folder listing).Perm (listing.filter pyEndsWithZip) ∧
    List.Sorted natLeRel (unzipRemaining (list_s3_zips_for_folder listing) processedKeys) ∧
    natLt ("p/A_Part1.zip") ("p/A_Part1_Split1.zip") = true ∧
    natLt ("p/A_Part1_Split1.zip") ("p/A_Part2.zip") = true ∧
    natLt ("p/A_Part2.zip") ("p/A_Part10.zip") = true ∧
    list_s3_zips_for_folder
      ["p/A_Part2.zip", "p/A_Part10.zip", "p/A_other.txt", "p/A_Part1_Split1.zip",
        "p/A_Part1.zip"] =
      ["p/A_Part1.zip", "p/A_Part1_Split1.zip", "p/A_Part2.zip", "p/A_Part10.zip"] := by
  refine ⟨List.sorted_insertionSort _ _, List.perm_insertionSort _ _, ?_,
    by decide, by decide, by decide, by decide⟩
  exact List.Pairwise.sublist (List.filter_sublist _) (List.sorted_insertionSort _ _)

/-! ## Theorems for C2 -/

/-- C2 counterexample: on the pure-ASCII folder name `a-b` (where NFC is
the identity, so `nfc = id` is exact) the code's `sanitize_name` leaves
the hyphen literal — `quote`'s safe set also contains `_ . - ~` — while
the function the claim describes encodes it to `%2D`. -/
theorem sanitize_name_counterexample :
    sanitize_name id (("a-b").data) = ("a-b").data ∧
    specSanitizeClaim id (("a-b").data) = ("a%2Db").data ∧
    sanitize_name id (("a-b").data) ≠ specSanitizeClaim id (("a-b").data) := by
  refine ⟨by decide, by decide, by decide⟩

/-- C2 amended: for every folder name, `sanitize_name` equals the function
that NFC-normalises and then percent-encodes (UTF-8, uppercase hex) every
character outside ASCII alphanumerics and `_ . - ~`, replacing `%20` and
`%2F` by `_` — provided `nfc` is the identity on ASCII strings, as Unicode
NFC is.  The same function is shared by Mapper, Zipper and Unzipper (their
sources are textually identical). -/
theorem sanitize_name_eq_spec (nfc : List Char → List Char)
    (hnfc : ∀ s, isAsciiString s = true → nfc s = s) (name : List Char) :
    sanitize_name nfc name = specSanitizeAmended nfc name := by
  unfold sanitize_name specSanitizeAmended safe_encode_filename
  by_cases h : isAsciiString name = true
  · rw [if_pos h, hnfc name h]
  · rw [if_neg h]

/-- Witness for C2 amended at `nfc = id` and the name `My Folder`. -/
theorem sanitize_name_eq_spec_witness :
    sanitize_name id (("My Folder").data) = specSanitizeAmended id (("My Folder").data) :=
  sanitize_name_eq_spec id (fun _ _ => rfl) (("My Folder").data)
